import Mathlib

/-!
# Verification of the sqs-navbat queue engine and dispatcher

A shallow embedding of the in-memory SQS emulator's core
(`src/queue/mod.rs`) and the HTTP dispatcher / handlers
(`src/api/*.rs`), with theorems settling the specification claims.

Modelling conventions:

* `std::time::Instant` is embedded as `Nat` (a monotone clock); every
  operation that calls `Instant::now()` in the source takes the current
  time as an explicit `now : Nat` argument.
* `uuid::Uuid::new_v4()` used for receipt handles is embedded as a draw
  from a monotone counter (`nextHandle`) carried in the queue state;
  distinct draws model the collision-freedom of fresh UUIDv4 strings,
  and string equality on handles becomes `Nat` equality.
* The `VecDeque<Message>` is embedded as `List Message` (head at the
  front, push at the back), matching the source's iteration order.
-/

set_option autoImplicit false

namespace SqsNavbat

/-- `Message` value object, from `src/queue/mod.rs` lines 4-12. -/
structure Message where
  id : String
  message_body : String
  receipt_handle : Option Nat
  receive_count : Nat
  visible_at : Nat
  first_received_at : Option Nat
  deriving Repr, DecidableEq

/-- `Message::new`, from `src/queue/mod.rs` lines 15-24: fresh messages
carry no handle, zero receive count, and are immediately visible
(`visible_at = now`). -/
def Message.new (id : String) (message_body : String) (now : Nat) : Message :=
  { id := id
    message_body := message_body
    receipt_handle := none
    receive_count := 0
    visible_at := now
    first_received_at := none }

/-- `Queue`, from `src/queue/mod.rs` lines 33-39, with the extra
`nextHandle` counter standing in for the global UUIDv4 generator. -/
structure Queue where
  name : String
  tags : List (String × String)
  default_visibility_timeout : Nat
  messages : List Message
  nextHandle : Nat
  deriving Repr, DecidableEq

/-- `Queue::new`, from `src/queue/mod.rs` lines 43-50: the default
visibility timeout falls back to 30 when unspecified. -/
def Queue.mkNew (name : String) (tags : List (String × String))
    (default_visibility_timeout : Option Nat) : Queue :=
  { name := name
    tags := tags
    default_visibility_timeout := default_visibility_timeout.getD 30
    messages := []
    nextHandle := 0 }

/-- `Queue::push`, from `src/queue/mod.rs` lines 52-54: append at tail. -/
def Queue.push (q : Queue) (msg : Message) : Queue :=
  { q with messages := q.messages ++ [msg] }

/-- The loop body of `Queue::receive` (`src/queue/mod.rs` lines 64-78),
walking the sequence from the head: `remaining` counts how many more
messages may still be returned (the source instead checks
`received.len() >= max_messages` and breaks), `h` is the next fresh
handle. Returns the updated sequence, the list of snapshots, and the
next fresh handle. -/
def receiveGo (timeout now : Nat) :
    List Message → Nat → Nat → List Message × List Message × Nat
  | [], _, h => ([], [], h)
  | m :: rest, remaining, h =>
    if remaining = 0 then (m :: rest, [], h)
    else if m.visible_at ≤ now then
      let m' : Message :=
        { m with
          receipt_handle := some h
          receive_count := m.receive_count + 1
          visible_at := now + timeout
          first_received_at :=
            match m.first_received_at with
            | none => some now
            | some t => some t }
      let res := receiveGo timeout now rest (remaining - 1) (h + 1)
      (m' :: res.1, m' :: res.2.1, res.2.2)
    else
      let res := receiveGo timeout now rest remaining h
      (m :: res.1, res.2.1, res.2.2)

/-- `Queue::receive`, from `src/queue/mod.rs` lines 59-81: receive up to
`max_messages` visible messages; they are not removed, only made
invisible for `timeout` seconds, and snapshots (with the fresh handle
set) are returned. -/
def Queue.receive (q : Queue) (max_messages : Nat) (visibility_timeout : Option Nat)
    (now : Nat) : Queue × List Message :=
  let timeout := visibility_timeout.getD q.default_visibility_timeout
  let res := receiveGo timeout now q.messages max_messages q.nextHandle
  ({ q with messages := res.1, nextHandle := res.2.2 }, res.2.1)

/-- The position scan of `Queue::delete_by_receipt_handle`
(`src/queue/mod.rs` lines 85-89): remove the first message whose stored
handle equals `handle`, or `none` when no message matches. -/
def deleteGo (handle : Nat) : List Message → Option (List Message)
  | [] => none
  | m :: rest =>
    if m.receipt_handle = some handle then some rest
    else (deleteGo handle rest).map (m :: ·)

/-- `Queue::delete_by_receipt_handle`, from `src/queue/mod.rs` lines
84-95: returns the updated queue and whether a message was removed. -/
def Queue.delete_by_receipt_handle (q : Queue) (handle : Nat) : Queue × Bool :=
  match deleteGo handle q.messages with
  | some msgs => ({ q with messages := msgs }, true)
  | none => (q, false)

/-- The find-and-update scan of `Queue::change_visibility`
(`src/queue/mod.rs` lines 99-105): reset `visible_at` of the first
message whose stored handle equals `handle`. -/
def changeGo (handle timeout now : Nat) : List Message → Option (List Message)
  | [] => none
  | m :: rest =>
    if m.receipt_handle = some handle then
      some ({ m with visible_at := now + timeout } :: rest)
    else (changeGo handle timeout now rest).map (m :: ·)

/-- `Queue::change_visibility`, from `src/queue/mod.rs` lines 98-109:
returns the updated queue and whether a matching in-flight message was
found. -/
def Queue.change_visibility (q : Queue) (handle : Nat) (timeout : Nat) (now : Nat) :
    Queue × Bool :=
  match changeGo handle timeout now q.messages with
  | some msgs => ({ q with messages := msgs }, true)
  | none => (q, false)

/-- `Queue::approximate_number_of_messages`, from `src/queue/mod.rs`
lines 112-115: count of currently visible messages. -/
def Queue.approximate_number_of_messages (q : Queue) (now : Nat) : Nat :=
  (q.messages.filter (fun m => decide (m.visible_at ≤ now))).length

/-- `Queue::approximate_number_of_messages_not_visible`, from
`src/queue/mod.rs` lines 118-121: count of currently invisible
(in-flight) messages. -/
def Queue.approximate_number_of_messages_not_visible (q : Queue) (now : Nat) : Nat :=
  (q.messages.filter (fun m => decide (now < m.visible_at))).length

/-- HTTP response outcomes produced by the handlers in `src/api/*.rs`:
`HttpResponse::BadRequest().body(..)`, `InternalServerError().body(..)`
and the `Ok` path (whose XML body, carrying a fresh `RequestId`, is not
needed by any claim and is collapsed). -/
inductive HResp where
  | badRequest (body : String)
  | internalServerError (body : String)
  | ok
  deriving Repr, DecidableEq

/-- The HTTP status code of each response constructor. -/
def HResp.status : HResp → Nat
  | .badRequest _ => 400
  | .internalServerError _ => 500
  | .ok => 200

/-- The `None` branch of the registry lookup in `send_message.rs` lines
86-92: note the extra `see the SQS docs.` fragment in this handler's
format string. -/
def sendMessageQueueMissing (queue_name : String) : HResp :=
  .badRequest ("AWS.SimpleQueueService.NonExistentQueue; see the SQS docs. Queue: " ++ queue_name)

/-- The `None` branch of the registry lookup in `receive_message.rs`
lines 93-98. -/
def receiveMessageQueueMissing (queue_name : String) : HResp :=
  .badRequest ("AWS.SimpleQueueService.NonExistentQueue; Queue: " ++ queue_name)

/-- The `None` branch of the registry lookup in `delete_message.rs`
lines 54-59. -/
def deleteMessageQueueMissing (queue_name : String) : HResp :=
  .badRequest ("AWS.SimpleQueueService.NonExistentQueue; Queue: " ++ queue_name)

/-- The `None` branch of the registry lookup in
`change_message_visibility.rs` lines 55-60. -/
def changeMessageVisibilityQueueMissing (queue_name : String) : HResp :=
  .badRequest ("AWS.SimpleQueueService.NonExistentQueue; Queue: " ++ queue_name)

/-- The missing-queue branch of `get_queue_url.rs` lines 45-50 (this
handler takes `QueueName` directly). -/
def getQueueUrlQueueMissing (queue_name : String) : HResp :=
  .badRequest ("AWS.SimpleQueueService.NonExistentQueue; Queue: " ++ queue_name)

/-- The `None` branch of the registry lookup in
`get_queue_attributes.rs` lines 82-87. -/
def getQueueAttributesQueueMissing (queue_name : String) : HResp :=
  .badRequest ("AWS.SimpleQueueService.NonExistentQueue; Queue: " ++ queue_name)

/-- The missing-queue branch of `set_queue_attributes.rs` lines 64-69. -/
def setQueueAttributesQueueMissing (queue_name : String) : HResp :=
  .badRequest ("AWS.SimpleQueueService.NonExistentQueue; Queue: " ++ queue_name)

/-- `get_action_name`, from `src/api/mod.rs` lines 85-96: the
`x-amz-target` header value is used verbatim when present; otherwise
the form-decoded `Action` field (`none` when the body fails to
decode). -/
def get_action_name (header : Option String) (bodyAction : Option String) : Option String :=
  match header with
  | some target => some target
  | none => bodyAction

/-- `str::starts_with(pattern)` embedded structurally over the
character list (byte-for-byte, case-sensitive, exactly as in Rust). -/
def strStartsWith (s pat : String) : Bool := pat.toList.isPrefixOf s.toList

/-- `str::to_lowercase()` embedded over the character list; the action
names compared by the dispatcher are ASCII, where Rust's full Unicode
lowering and per-character lowering agree. -/
def strToLower (s : String) : String := String.mk (s.toList.map Char.toLower)

/-- Routing outcomes of `post_handler` (`src/api/mod.rs`):
the JSON-protocol rejection, the `Invalid action` rejection, and a
dispatch to a handler identified by its lowercase action key. -/
inductive Dispatch where
  | notSupportedJson
  | invalid
  | handler (key : String)
  deriving Repr, DecidableEq

/-- The lowercase action keys of the nine supported actions, as matched
by `post_handler` (`src/api/mod.rs` lines 38-67). -/
def supportedActionKeys : List String :=
  ["createqueue", "listqueues", "sendmessage", "receivemessage", "deletemessage",
   "changemessagevisibility", "getqueueurl", "getqueueattributes", "setqueueattributes"]

/-- The `match action.to_lowercase().as_str()` arms of `post_handler`
(`src/api/mod.rs` lines 38-67), applied to the lowercased action. -/
def matchActionLower (l : String) : Dispatch :=
  if l = "amazonsqs.createqueue" ∨ l = "createqueue" then .handler "createqueue"
  else if l = "amazonsqs.listqueues" ∨ l = "listqueues" then .handler "listqueues"
  else if l = "amazonsqs.sendmessage" ∨ l = "sendmessage" then .handler "sendmessage"
  else if l = "amazonsqs.receivemessage" ∨ l = "receivemessage" then .handler "receivemessage"
  else if l = "amazonsqs.deletemessage" ∨ l = "deletemessage" then .handler "deletemessage"
  else if l = "amazonsqs.changemessagevisibility" ∨ l = "changemessagevisibility" then
    .handler "changemessagevisibility"
  else if l = "amazonsqs.getqueueurl" ∨ l = "getqueueurl" then .handler "getqueueurl"
  else if l = "amazonsqs.getqueueattributes" ∨ l = "getqueueattributes" then
    .handler "getqueueattributes"
  else if l = "amazonsqs.setqueueattributes" ∨ l = "setqueueattributes" then
    .handler "setqueueattributes"
  else .invalid

/-- The action routing of `post_handler` (`src/api/mod.rs` lines
33-67): `is_json = action.starts_with("AmazonSQS")` (case-sensitive,
applied to the action string from whichever source produced it)
short-circuits to the not-supported rejection; otherwise the lowercased
action is matched. -/
def dispatchAction (action : String) : Dispatch :=
  if strStartsWith action "AmazonSQS" then .notSupportedJson
  else matchActionLower (strToLower action)

/-- Full request routing: `get_action_name` (header wins over body)
followed by `dispatchAction`; a request with no recoverable action is
the `Invalid action` rejection (`src/api/mod.rs` lines 28-31). -/
def routeRequest (header : Option String) (bodyAction : Option String) : Dispatch :=
  match get_action_name header bodyAction with
  | none => .invalid
  | some action => dispatchAction action

/-- The per-message attribute construction of `receive_message.rs`
`process` (lines 111-128): `ApproximateReceiveCount` always, then
`ApproximateFirstReceiveTimestamp` only when `first_received_at` is
set. `sysNowMs` is the value `SystemTime::now()` reads in Unix
milliseconds at the moment the response is built — the source formats
that clock reading, not the stored `first_received_at`. -/
def receiveMessageAttrs (msg : Message) (sysNowMs : Nat) : List (String × String) :=
  let base := [("ApproximateReceiveCount", toString msg.receive_count)]
  match msg.first_received_at with
  | some _first => base ++ [("ApproximateFirstReceiveTimestamp", toString sysNowMs)]
  | none => base

/-- The attribute merge of `get_queue_attributes.rs` `process` (lines
62-128): `requested` carries the `AttributeName.N` filter values,
`db_attrs` the rows returned by the AttributeStore (iteration order of
the store's map given by the list). Computed attributes are pushed
first; a store row is pushed when it passes the filter and its name is
not `VisibilityTimeout` (the `continue` on line 120-122). -/
def mergeQueueAttributes (q : Queue) (now : Nat) (requested : List String)
    (db_attrs : List (String × String)) : List (String × String) :=
  let wantAll := requested.isEmpty || requested.contains "All"
  let computed : List (String × String) :=
    [("ApproximateNumberOfMessages", toString (q.approximate_number_of_messages now)),
     ("ApproximateNumberOfMessagesNotVisible",
       toString (q.approximate_number_of_messages_not_visible now)),
     ("VisibilityTimeout", toString q.default_visibility_timeout)]
  let fromComputed := computed.filter (fun p => wantAll || requested.contains p.1)
  let fromDb := db_attrs.filter
    (fun p => (wantAll || requested.contains p.1) && !(p.1 == "VisibilityTimeout"))
  fromComputed ++ fromDb

/-- The dispatcher clamp of `receive_message.rs` line 79:
`params.max_number_of_messages.min(10).max(1)`. -/
def clampMax (n : Nat) : Nat := Nat.max (Nat.min n 10) 1

/-- Lookup in the registry map (`app_state.queues`,
a `HashMap<String, Queue>`), embedded as an association list. -/
def getQueue : List (String × Queue) → String → Option Queue
  | [], _ => none
  | (k, q) :: rest, name => if k = name then some q else getQueue rest name

/-- The `get_mut`-and-assign on the registry map: apply `f` to the
queue stored under `name`, leaving the map unchanged when absent. -/
def updateQueue : List (String × Queue) → String → (Queue → Queue) → List (String × Queue)
  | [], _, _ => []
  | (k, q) :: rest, name, f =>
    if k = name then (k, f q) :: rest else (k, q) :: updateQueue rest name f

/-- `HashMap::get` on the pivoted attribute map, embedded as an
association list. -/
def lookupAttr : List (String × String) → String → Option String
  | [], _ => none
  | (k, v) :: rest, key => if k = key then some v else lookupAttr rest key

/-- `str::parse::<u32>` on the attribute value: a nonempty all-digit
string whose value fits in `u32` (the optional leading `+` sign Rust
accepts is immaterial to the claims). -/
def parseU32 (s : String) : Option Nat :=
  let cs := s.toList
  if cs.isEmpty then none
  else if cs.all (fun c => c.isDigit) then
    let n := cs.foldl (fun acc c => acc * 10 + (c.toNat - 48)) 0
    if n < 4294967296 then some n else none
  else none

/-- `set_queue_attributes.rs` `process`, from the point where the
queue name and the pivoted `Attribute.N.Name`/`Value` map `attrs` are
in hand (the form decoding itself is not needed by any claim): the
empty-attrs rejection (line 57-59), the existence check (lines 62-70),
the in-memory `default_visibility_timeout` update when a parseable
`VisibilityTimeout` is supplied (lines 72-80), then the AttributeStore
write, whose outcome the caller passes in as `storeResult` (lines
82-87; the store lives outside the registry lock). Returns the updated
registry map and the HTTP response; the serialized success body is
collapsed into `HResp.ok`. -/
def setQueueAttributesProcess (queues : List (String × Queue)) (queue_name : String)
    (attrs : List (String × String)) (storeResult : Except String Unit) :
    List (String × Queue) × HResp :=
  if attrs.isEmpty then
    (queues, .badRequest "No attributes provided")
  else if (getQueue queues queue_name).isNone then
    (queues, .badRequest ("AWS.SimpleQueueService.NonExistentQueue; Queue: " ++ queue_name))
  else
    let queues' :=
      match lookupAttr attrs "VisibilityTimeout" with
      | some vt =>
        match parseU32 vt with
        | some timeout =>
          updateQueue queues queue_name
            (fun q => { q with default_visibility_timeout := timeout })
        | none => queues
      | none => queues
    match storeResult with
    | .error e => (queues', .internalServerError ("Failed to set attributes: " ++ e))
    | .ok _ => (queues', .ok)

end SqsNavbat

namespace SqsNavbat

/-- **C4.** For every queue state and a single time instant `now` (the
same lock acquisition, hence the same clock reading for both scans), the
visible count plus the not-visible count equals the length of the
message sequence: the two filters partition the sequence by
`visible_at ≤ now` versus `visible_at > now`. -/
theorem approximate_counts_partition (q : Queue) (now : Nat) :
    q.approximate_number_of_messages now
      + q.approximate_number_of_messages_not_visible now
      = q.messages.length := by
  unfold Queue.approximate_number_of_messages
    Queue.approximate_number_of_messages_not_visible
  induction q.messages with
  | nil => simp
  | cons m rest ih =>
    by_cases h : m.visible_at ≤ now
    · have h' : ¬ now < m.visible_at := by omega
      simp [List.filter_cons, h, h']
      omega
    · have h' : now < m.visible_at := by omega
      simp [List.filter_cons, h, h']
      omega

/-- **C1.** The `ApproximateFirstReceiveTimestamp` value emitted by the
receive handler is the wall clock at response-build time, not the
message's stored `first_received_at`: two messages whose
`first_received_at` differ (5 versus 1234) produce the identical
attribute value `"99999"` (the build-time clock), while a
never-received message gets no such attribute. This evaluates the code
at the failing input and exhibits the divergence from the claim. -/
theorem first_receive_timestamp_uses_wall_clock :
    receiveMessageAttrs ⟨"m1", "hello", some 7, 2, 35, some 5⟩ 99999
      = [("ApproximateReceiveCount", "2"), ("ApproximateFirstReceiveTimestamp", "99999")] ∧
    receiveMessageAttrs ⟨"m2", "world", some 8, 3, 40, some 1234⟩ 99999
      = [("ApproximateReceiveCount", "3"), ("ApproximateFirstReceiveTimestamp", "99999")] ∧
    receiveMessageAttrs ⟨"m3", "x", none, 0, 0, none⟩ 99999
      = [("ApproximateReceiveCount", "0")] := by
  refine ⟨rfl, rfl, rfl⟩

/-- **C3 counterexample.** The claim asserts that SendMessage on a
missing queue returns the body
`AWS.SimpleQueueService.NonExistentQueue; Queue: <name>`; in the source
(`send_message.rs` lines 86-92) the format string differs, inserting
`see the SQS docs.`. -/
theorem send_message_missing_queue_body_differs :
    sendMessageQueueMissing "q1"
      ≠ HResp.badRequest "AWS.SimpleQueueService.NonExistentQueue; Queue: q1" := by
  decide

/-- **C3 (amended).** Every handler that can observe a missing queue
returns HTTP 400; the six handlers other than SendMessage use exactly
the body `AWS.SimpleQueueService.NonExistentQueue; Queue: <name>`,
while SendMessage uses
`AWS.SimpleQueueService.NonExistentQueue; see the SQS docs. Queue: <name>`
— all seven bodies share the prefix
`AWS.SimpleQueueService.NonExistentQueue`. -/
theorem nonexistent_queue_responses (name : String) :
    receiveMessageQueueMissing name
        = HResp.badRequest ("AWS.SimpleQueueService.NonExistentQueue; Queue: " ++ name) ∧
    deleteMessageQueueMissing name
        = HResp.badRequest ("AWS.SimpleQueueService.NonExistentQueue; Queue: " ++ name) ∧
    changeMessageVisibilityQueueMissing name
        = HResp.badRequest ("AWS.SimpleQueueService.NonExistentQueue; Queue: " ++ name) ∧
    getQueueUrlQueueMissing name
        = HResp.badRequest ("AWS.SimpleQueueService.NonExistentQueue; Queue: " ++ name) ∧
    getQueueAttributesQueueMissing name
        = HResp.badRequest ("AWS.SimpleQueueService.NonExistentQueue; Queue: " ++ name) ∧
    setQueueAttributesQueueMissing name
        = HResp.badRequest ("AWS.SimpleQueueService.NonExistentQueue; Queue: " ++ name) ∧
    sendMessageQueueMissing name
        = HResp.badRequest
            ("AWS.SimpleQueueService.NonExistentQueue" ++ ("; see the SQS docs. Queue: " ++ name)) ∧
    (sendMessageQueueMissing name).status = 400 ∧
    (receiveMessageQueueMissing name).status = 400 := by
  refine ⟨rfl, rfl, rfl, rfl, rfl, rfl, ?_, rfl, rfl⟩
  rw [← String.append_assoc]
  rfl

/-- **C2 counterexample.** A body-form request whose `Action` field is
exactly `AmazonSQS.SendMessage` is rejected with the JSON
not-supported error, although the claim says the `AmazonSQS.` prefix is
accepted in the body form and only header-carried actions are rejected:
`is_json = action.starts_with("AmazonSQS")` in `src/api/mod.rs` line 33
is applied to the action from either source. -/
theorem body_action_with_exact_prefix_rejected :
    routeRequest none (some "AmazonSQS.SendMessage") = Dispatch.notSupportedJson ∧
    Dispatch.notSupportedJson ≠ Dispatch.handler "sendmessage" := by
  constructor
  · decide
  · decide

/-- The lowercase match arms never produce the JSON rejection: that
rejection is decided before the match, by the prefix test alone. -/
theorem matchActionLower_ne_notSupported (l : String) :
    matchActionLower l ≠ Dispatch.notSupportedJson := by
  unfold matchActionLower
  repeat' split
  all_goals simp

/-- **C2 (amended).** Action routing treats the header form and the
body form identically; a request is rejected as JSON-protocol exactly
when its action string begins, case-sensitively, with `AmazonSQS` —
whichever source carried it — so the exact-case `AmazonSQS.` prefix is
always rejected; away from that rejection the match is
case-insensitive, and the all-lowercase `amazonsqs.` prefix (or any
case variant not matching `AmazonSQS` exactly) is accepted for every
supported action in both forms. -/
theorem action_dispatch_amended :
    (∀ a b, routeRequest (some a) b = dispatchAction a) ∧
    (∀ a, routeRequest none (some a) = dispatchAction a) ∧
    (∀ a, dispatchAction a = Dispatch.notSupportedJson ↔ strStartsWith a "AmazonSQS" = true) ∧
    (∀ a b, strToLower a = strToLower b → strStartsWith a "AmazonSQS" = false →
      strStartsWith b "AmazonSQS" = false → dispatchAction a = dispatchAction b) ∧
    (∀ k ∈ supportedActionKeys,
      dispatchAction ("amazonsqs." ++ k) = Dispatch.handler k ∧
      dispatchAction k = Dispatch.handler k) := by
  refine ⟨fun a b => rfl, fun a => rfl, ?_, ?_, ?_⟩
  · intro a
    unfold dispatchAction
    by_cases h : strStartsWith a "AmazonSQS" <;>
      simp [h, matchActionLower_ne_notSupported]
  · intro a b hl ha hb
    unfold dispatchAction
    simp [ha, hb, hl]
  · decide

/-- Witness for the amended C2 theorem: the lowercase-prefixed
SendMessage action is dispatched to the SendMessage handler. -/
theorem action_dispatch_amended_witness :
    dispatchAction ("amazonsqs." ++ "sendmessage") = Dispatch.handler "sendmessage" :=
  (action_dispatch_amended.2.2.2.2 "sendmessage" (by decide)).1

/-- **C5 counterexample.** The claim says every AttributeStore entry
whose name is in the computed set is skipped, so no name appears twice.
But the loop in `get_queue_attributes.rs` lines 117-128 only skips the
name `VisibilityTimeout`: with an empty queue and a stored row
`("ApproximateNumberOfMessages", "7")`, the merged output carries the
name `ApproximateNumberOfMessages` twice. -/
theorem computed_attr_duplicated_by_store :
    (((mergeQueueAttributes ⟨"q4", [], 30, [], 0⟩ 0 []
        [("ApproximateNumberOfMessages", "7")]).map Prod.fst).count
      "ApproximateNumberOfMessages") = 2 := by
  decide

/-- **C5 (amended).** The computed attributes are listed first and only
the name `VisibilityTimeout` is withheld from the AttributeStore rows:
`VisibilityTimeout` consequently appears at most once in the response,
but every other store row passing the request filter is appended even
when its name duplicates a computed attribute. -/
theorem merge_attrs_amended (q : Queue) (now : Nat) (requested : List String)
    (db_attrs : List (String × String)) :
    (((mergeQueueAttributes q now requested db_attrs).map Prod.fst).count
        "VisibilityTimeout" ≤ 1) ∧
    (∀ p ∈ db_attrs, p.1 ≠ "VisibilityTimeout" →
      ((requested.isEmpty || requested.contains "All") || requested.contains p.1) = true →
      p ∈ mergeQueueAttributes q now requested db_attrs) ∧
    (∃ l1 l2, mergeQueueAttributes q now requested db_attrs = l1 ++ l2 ∧
      (∀ p ∈ l1,
        p ∈ [("ApproximateNumberOfMessages", toString (q.approximate_number_of_messages now)),
             ("ApproximateNumberOfMessagesNotVisible",
               toString (q.approximate_number_of_messages_not_visible now)),
             ("VisibilityTimeout", toString q.default_visibility_timeout)]) ∧
      (∀ p ∈ l2, p ∈ db_attrs ∧ p.1 ≠ "VisibilityTimeout")) := by
  simp only [mergeQueueAttributes]
  refine ⟨?_, ?_, ?_⟩
  · rw [List.map_append, List.count_append]
    have h1 :
        ((List.filter
            (fun p => (requested.isEmpty || requested.contains "All") || requested.contains p.1)
            [("ApproximateNumberOfMessages", toString (q.approximate_number_of_messages now)),
             ("ApproximateNumberOfMessagesNotVisible",
               toString (q.approximate_number_of_messages_not_visible now)),
             ("VisibilityTimeout", toString q.default_visibility_timeout)]).map
          Prod.fst).count "VisibilityTimeout" ≤ 1 := by
      have hsub := ((List.filter_sublist
          (p := fun p : String × String =>
            (requested.isEmpty || requested.contains "All") || requested.contains p.1)
          [("ApproximateNumberOfMessages", toString (q.approximate_number_of_messages now)),
           ("ApproximateNumberOfMessagesNotVisible",
             toString (q.approximate_number_of_messages_not_visible now)),
           ("VisibilityTimeout", toString q.default_visibility_timeout)]).map
          Prod.fst).count_le "VisibilityTimeout"
      simpa using hsub
    have h2 :
        ((List.filter
            (fun p => ((requested.isEmpty || requested.contains "All")
              || requested.contains p.1) && !(p.1 == "VisibilityTimeout")) db_attrs).map
          Prod.fst).count "VisibilityTimeout" = 0 := by
      rw [List.count_eq_zero]
      intro hmem
      obtain ⟨p, hp, hfst⟩ := List.mem_map.mp hmem
      have hcond := (List.mem_filter.mp hp).2
      rw [Bool.and_eq_true] at hcond
      have : (p.1 == "VisibilityTimeout") = false := by
        simpa using hcond.2
      rw [hfst] at this
      simp at this
    omega
  · intro p hp hne hcond
    refine List.mem_append.mpr (Or.inr ?_)
    refine List.mem_filter.mpr ⟨hp, ?_⟩
    rw [Bool.and_eq_true]
    exact ⟨hcond, by simpa using hne⟩
  · refine ⟨_, _, rfl, ?_, ?_⟩
    · intro p hp
      exact (List.mem_filter.mp hp).1
    · intro p hp
      have hm := List.mem_filter.mp hp
      refine ⟨hm.1, ?_⟩
      have := hm.2
      rw [Bool.and_eq_true] at this
      simpa using this.2

/-- Witness for the amended C5 theorem: a store row named
`MessageRetentionPeriod` (not `VisibilityTimeout`) survives the merge
on an empty queue with no filter. -/
theorem merge_attrs_amended_witness :
    ("MessageRetentionPeriod", "345600")
      ∈ mergeQueueAttributes ⟨"q4", [], 30, [], 0⟩ 0 []
          [("MessageRetentionPeriod", "345600")] :=
  (merge_attrs_amended ⟨"q4", [], 30, [], 0⟩ 0 []
      [("MessageRetentionPeriod", "345600")]).2.1
    ("MessageRetentionPeriod", "345600") (by decide) (by decide) (by decide)

/-- The receive scan, characterized on message identifiers: the
snapshots are exactly the first `rem` visible messages in sequence
order, and the stored sequence keeps its identifiers in place. -/
theorem receiveGo_ids (timeout now : Nat) :
    ∀ (msgs : List Message) (rem h : Nat),
      ((receiveGo timeout now msgs rem h).2.1.map Message.id
        = ((msgs.filter (fun m => decide (m.visible_at ≤ now))).map Message.id).take rem)
      ∧ ((receiveGo timeout now msgs rem h).1.map Message.id = msgs.map Message.id) := by
  intro msgs
  induction msgs with
  | nil => intro rem h; simp [receiveGo]
  | cons m rest ih =>
    intro rem h
    cases rem with
    | zero => simp [receiveGo]
    | succ n =>
      by_cases hvis : m.visible_at ≤ now
      · have := ih n (h + 1)
        simp [receiveGo, hvis, List.filter_cons, this.1, this.2]
      · have := ih (n + 1) h
        simp [receiveGo, hvis, List.filter_cons, this.1, this.2]

/-- **C9.** FIFO-for-visible: in a single receive call the returned
identifiers are exactly the first `max` identifiers of the
visible-filtered sequence, in sequence (push) order — so whenever `a`
was pushed before `b` and both are returned, `a` precedes `b`; the
returned identifiers form an order-preserving subsequence of the
sequence; and invisible messages keep their position (the stored
sequence's identifiers are unchanged). -/
theorem receive_fifo_for_visible (q : Queue) (max : Nat) (vt : Option Nat) (now : Nat) :
    ((q.receive max vt now).2.map Message.id
      = ((q.messages.filter (fun m => decide (m.visible_at ≤ now))).map Message.id).take max) ∧
    List.Sublist ((q.receive max vt now).2.map Message.id) (q.messages.map Message.id) ∧
    ((q.receive max vt now).1.messages.map Message.id = q.messages.map Message.id) := by
  have hids := receiveGo_ids (vt.getD q.default_visibility_timeout) now q.messages max
    q.nextHandle
  have h1 : (q.receive max vt now).2.map Message.id
      = ((q.messages.filter (fun m => decide (m.visible_at ≤ now))).map Message.id).take max :=
    hids.1
  refine ⟨h1, ?_, hids.2⟩
  rw [h1]
  exact (List.take_sublist _ _).trans ((List.filter_sublist _).map _)

/-- **C8 counterexample.** With a requested count of 0 and one visible
message, the dispatcher clamp raises the count to 1 and receive returns
one message, exceeding `min(0, 10) = 0` — the claim's bound fails for
the requested count `n = 0`. -/
theorem receive_cap_claim_fails_at_zero :
    ¬ ((Queue.receive ⟨"q", [], 30, [Message.new "m1" "b" 0], 0⟩ (clampMax 0) none 0).2.length
        ≤ Nat.min 0 10) := by
  decide

/-- **C8 (amended).** The clamped receive returns at most
`clampMax n = max (min n 10) 1` messages — equal to `min n 10` whenever
the requested count is at least 1, which is the documented parameter
range — and returns at least one message whenever some message is
visible at poll time. -/
theorem receive_cap_amended (q : Queue) (n : Nat) (vt : Option Nat) (now : Nat) :
    ((q.receive (clampMax n) vt now).2.length ≤ clampMax n) ∧
    (1 ≤ n → (q.receive (clampMax n) vt now).2.length ≤ Nat.min n 10) ∧
    ((∃ m ∈ q.messages, m.visible_at ≤ now) →
      1 ≤ (q.receive (clampMax n) vt now).2.length) := by
  have hlen : (q.receive (clampMax n) vt now).2.length
      = Nat.min (clampMax n)
          ((q.messages.filter (fun m => decide (m.visible_at ≤ now))).length) := by
    have h1 := (receive_fifo_for_visible q (clampMax n) vt now).1
    have h2 := congrArg List.length h1
    simpa [List.length_take] using h2
  refine ⟨?_, ?_, ?_⟩
  · rw [hlen]; exact Nat.min_le_left _ _
  · intro hn
    have hc : clampMax n = Nat.min n 10 := by
      unfold clampMax
      exact Nat.max_eq_left (Nat.le_min.mpr ⟨hn, by omega⟩)
    rw [hlen, hc]; exact Nat.min_le_left _ _
  · intro ⟨m, hm, hvis⟩
    have hne : m ∈ q.messages.filter (fun m => decide (m.visible_at ≤ now)) :=
      List.mem_filter.mpr ⟨hm, by simpa using hvis⟩
    have hpos : 1 ≤ (q.messages.filter (fun m => decide (m.visible_at ≤ now))).length :=
      List.length_pos.mpr (List.ne_nil_of_mem hne)
    have hcl : 1 ≤ clampMax n := Nat.le_max_right _ _
    rw [hlen]; exact Nat.le_min.mpr ⟨hcl, hpos⟩

/-- Witness for the amended C8 theorem: one visible message, requested
count 3 — at least one and at most `min 3 10` messages come back. -/
theorem receive_cap_amended_witness :
    1 ≤ (Queue.receive ⟨"q", [], 30, [Message.new "m1" "b" 0], 0⟩ (clampMax 3) none 0).2.length ∧
    (Queue.receive ⟨"q", [], 30, [Message.new "m1" "b" 0], 0⟩ (clampMax 3) none 0).2.length
      ≤ Nat.min 3 10 :=
  ⟨(receive_cap_amended ⟨"q", [], 30, [Message.new "m1" "b" 0], 0⟩ 3 none 0).2.2
      ⟨Message.new "m1" "b" 0, by decide, by decide⟩,
   (receive_cap_amended ⟨"q", [], 30, [Message.new "m1" "b" 0], 0⟩ 3 none 0).2.1 (by decide)⟩

/-- The delete scan misses exactly when no stored handle matches. -/
theorem deleteGo_eq_none_iff (h : Nat) (msgs : List Message) :
    deleteGo h msgs = none ↔ ∀ m ∈ msgs, m.receipt_handle ≠ some h := by
  induction msgs with
  | nil => simp [deleteGo]
  | cons m rest ih =>
    by_cases hm : m.receipt_handle = some h
    · simp [deleteGo, hm]
    · simp [deleteGo, hm, ih]

/-- A successful delete removes exactly one message. -/
theorem deleteGo_some_length (h : Nat) (msgs : List Message) :
    ∀ out, deleteGo h msgs = some out → out.length + 1 = msgs.length := by
  induction msgs with
  | nil => intro out hout; simp [deleteGo] at hout
  | cons m rest ih =>
    intro out hout
    by_cases hm : m.receipt_handle = some h
    · simp [deleteGo, hm] at hout
      subst hout
      simp
    · simp [deleteGo, hm] at hout
      obtain ⟨a, ha, rfl⟩ := hout
      have := ih a ha
      simp
      omega

/-- The visibility-change scan misses exactly when no stored handle
matches. -/
theorem changeGo_eq_none_iff (h t now : Nat) (msgs : List Message) :
    changeGo h t now msgs = none ↔ ∀ m ∈ msgs, m.receipt_handle ≠ some h := by
  induction msgs with
  | nil => simp [changeGo]
  | cons m rest ih =>
    by_cases hm : m.receipt_handle = some h
    · simp [changeGo, hm]
    · simp [changeGo, hm, ih]

/-- After a successful visibility change, the found message still holds
the same handle and its `visible_at` is `now + timeout`. -/
theorem changeGo_keeps_handle (h t now : Nat) (msgs : List Message) :
    ∀ out, changeGo h t now msgs = some out →
      ∃ m ∈ out, m.receipt_handle = some h ∧ m.visible_at = now + t := by
  induction msgs with
  | nil => intro out hout; simp [changeGo] at hout
  | cons m rest ih =>
    intro out hout
    by_cases hm : m.receipt_handle = some h
    · simp [changeGo, hm] at hout
      subst hout
      exact ⟨_, List.mem_cons_self _ _, by simp [hm], rfl⟩
    · simp [changeGo, hm] at hout
      obtain ⟨a, ha, rfl⟩ := hout
      obtain ⟨m', hm', hh, hv⟩ := ih a ha
      exact ⟨m', List.mem_cons_of_mem _ hm', hh, hv⟩

/-- **C10.** `change_visibility(h, 0)` neither clears nor rotates the
stored receipt handle: on a queue holding handle `h`, it succeeds and
makes the message visible again (`visible_at = now`), and on the
resulting state — before any further receive — `delete_by_receipt_handle h`
still succeeds and removes exactly one message, and
`change_visibility(h, t)` still succeeds for any timeout. -/
theorem change_visibility_zero_keeps_handle (q : Queue) (h now : Nat)
    (hheld : ∃ m ∈ q.messages, m.receipt_handle = some h) :
    ((q.change_visibility h 0 now).2 = true) ∧
    (∃ m ∈ (q.change_visibility h 0 now).1.messages,
      m.receipt_handle = some h ∧ m.visible_at ≤ now) ∧
    (((q.change_visibility h 0 now).1.delete_by_receipt_handle h).2 = true) ∧
    ((((q.change_visibility h 0 now).1.delete_by_receipt_handle h).1.messages.length) + 1
      = (q.change_visibility h 0 now).1.messages.length) ∧
    (∀ t now2, ((q.change_visibility h 0 now).1.change_visibility h t now2).2 = true) := by
  obtain ⟨m0, hm0, hh0⟩ := hheld
  have hne : changeGo h 0 now q.messages ≠ none := by
    rw [Ne, changeGo_eq_none_iff]
    push_neg
    exact ⟨m0, hm0, hh0⟩
  obtain ⟨out, hout⟩ := Option.ne_none_iff_exists'.mp hne
  have hq1 : q.change_visibility h 0 now = ({ q with messages := out }, true) := by
    simp [Queue.change_visibility, hout]
  obtain ⟨m1, hm1, hh1, hv1⟩ := changeGo_keeps_handle h 0 now q.messages out hout
  have hdel : deleteGo h out ≠ none := by
    rw [Ne, deleteGo_eq_none_iff]
    push_neg
    exact ⟨m1, hm1, hh1⟩
  obtain ⟨out2, hout2⟩ := Option.ne_none_iff_exists'.mp hdel
  have hchg2 : ∀ t now2, changeGo h t now2 out ≠ none := by
    intro t now2
    rw [Ne, changeGo_eq_none_iff]
    push_neg
    exact ⟨m1, hm1, hh1⟩
  refine ⟨by rw [hq1], ?_, ?_, ?_, ?_⟩
  · rw [hq1]
    exact ⟨m1, hm1, hh1, by omega⟩
  · rw [hq1]
    simp [Queue.delete_by_receipt_handle, hout2]
  · rw [hq1]
    simp only [Queue.delete_by_receipt_handle, hout2]
    exact deleteGo_some_length h out out2 hout2
  · intro t now2
    rw [hq1]
    obtain ⟨out3, hout3⟩ := Option.ne_none_iff_exists'.mp (hchg2 t now2)
    simp [Queue.change_visibility, hout3]

/-- Witness for C10: a single in-flight message holding handle 5. -/
theorem change_visibility_zero_keeps_handle_witness :
    ((Queue.change_visibility ⟨"q", [], 30, [⟨"m1", "b", some 5, 1, 40, some 3⟩], 6⟩ 5 0 10).2
        = true) ∧
    (((Queue.change_visibility ⟨"q", [], 30, [⟨"m1", "b", some 5, 1, 40, some 3⟩], 6⟩
        5 0 10).1.delete_by_receipt_handle 5).2 = true) :=
  have hmain := change_visibility_zero_keeps_handle
    ⟨"q", [], 30, [⟨"m1", "b", some 5, 1, 40, some 3⟩], 6⟩ 5 10
    ⟨⟨"m1", "b", some 5, 1, 40, some 3⟩, by decide, by decide⟩
  ⟨hmain.1, hmain.2.2.1⟩

/-- Reading back the queue that `updateQueue` rewrote. -/
theorem getQueue_updateQueue (qs : List (String × Queue)) (name : String) (f : Queue → Queue) :
    getQueue (updateQueue qs name f) name = (getQueue qs name).map f := by
  induction qs with
  | nil => simp [getQueue, updateQueue]
  | cons kv rest ih =>
    obtain ⟨k, q⟩ := kv
    by_cases hk : k = name
    · simp [getQueue, updateQueue, hk]
    · simp [getQueue, updateQueue, hk, ih]

/-- **C7.** When SetQueueAttributes carries a parseable
`VisibilityTimeout` for an existing queue and the AttributeStore write
fails, the handler answers with the internal error (HTTP 500) but the
in-memory `default_visibility_timeout` — updated before the store call —
keeps the new value: no rollback. -/
theorem set_queue_attributes_no_rollback (queues : List (String × Queue))
    (name : String) (attrs : List (String × String)) (vt : String) (t : Nat) (e : String)
    (q0 : Queue)
    (hq : getQueue queues name = some q0)
    (hvt : lookupAttr attrs "VisibilityTimeout" = some vt)
    (hparse : parseU32 vt = some t) :
    (setQueueAttributesProcess queues name attrs (Except.error e)).2
        = HResp.internalServerError ("Failed to set attributes: " ++ e) ∧
    (setQueueAttributesProcess queues name attrs (Except.error e)).2.status = 500 ∧
    getQueue (setQueueAttributesProcess queues name attrs (Except.error e)).1 name
        = some { q0 with default_visibility_timeout := t } := by
  have hne : attrs.isEmpty = false := by
    cases attrs with
    | nil => simp [lookupAttr] at hvt
    | cons a rest => rfl
  simp only [setQueueAttributesProcess, hne, hq, hvt, hparse, Option.isNone_some,
    Bool.false_eq_true, if_false]
  refine ⟨by trivial, by trivial, ?_⟩
  rw [getQueue_updateQueue, hq]
  rfl

/-- Witness for C7: queue `q1` with default timeout 30, a request
setting `VisibilityTimeout=60`, and a failing store write — the handler
reports the internal error yet the in-memory timeout reads 60. -/
theorem set_queue_attributes_no_rollback_witness :
    (setQueueAttributesProcess [("q1", ⟨"q1", [], 30, [], 0⟩)] "q1"
        [("VisibilityTimeout", "60")] (Except.error "db down")).2.status = 500 ∧
    getQueue (setQueueAttributesProcess [("q1", ⟨"q1", [], 30, [], 0⟩)] "q1"
        [("VisibilityTimeout", "60")] (Except.error "db down")).1 "q1"
      = some ⟨"q1", [], 60, [], 0⟩ :=
  have hmain := set_queue_attributes_no_rollback [("q1", ⟨"q1", [], 30, [], 0⟩)] "q1"
    [("VisibilityTimeout", "60")] "60" 60 "db down" ⟨"q1", [], 30, [], 0⟩
    (by decide) (by decide) (by decide)
  ⟨hmain.2.1, hmain.2.2⟩

/-- Structural facts about one receive scan: the handle counter only
grows; every snapshot carries a handle drawn from the counter window
`[h0, h')` of this scan; every snapshot is stored back in the sequence;
and every stored message is either an untouched original or one of this
scan's snapshots. -/
theorem receiveGo_spec (timeout now : Nat) :
    ∀ (msgs : List Message) (rem h0 : Nat),
      (h0 ≤ (receiveGo timeout now msgs rem h0).2.2) ∧
      (∀ x ∈ (receiveGo timeout now msgs rem h0).2.1,
        ∃ j, h0 ≤ j ∧ j < (receiveGo timeout now msgs rem h0).2.2 ∧
          x.receipt_handle = some j) ∧
      (∀ x ∈ (receiveGo timeout now msgs rem h0).2.1,
        x ∈ (receiveGo timeout now msgs rem h0).1) ∧
      (∀ x ∈ (receiveGo timeout now msgs rem h0).1,
        x ∈ msgs ∨ x ∈ (receiveGo timeout now msgs rem h0).2.1) := by
  intro msgs
  induction msgs with
  | nil =>
    intro rem h0
    refine ⟨Nat.le_refl _, ?_, ?_, ?_⟩ <;> simp [receiveGo]
  | cons m rest ih =>
    intro rem h0
    cases rem with
    | zero =>
      refine ⟨Nat.le_refl _, ?_, ?_, ?_⟩ <;> simp [receiveGo]
    | succ n =>
      by_cases hvis : m.visible_at ≤ now
      · obtain ⟨ihmono, ihwin, ihstored, ihorig⟩ := ih n (h0 + 1)
        refine ⟨?_, ?_, ?_, ?_⟩
        · simp only [receiveGo, hvis]
          simp only [Nat.succ_ne_zero, if_false, if_true, Nat.succ_sub_one, decide_True]
          omega
        · intro x hx
          simp only [receiveGo, Nat.succ_ne_zero, if_false, hvis, decide_True, if_true,
            Nat.succ_sub_one, List.mem_cons] at hx ⊢
          rcases hx with rfl | hx
          · exact ⟨h0, Nat.le_refl _, by omega, rfl⟩
          · obtain ⟨j, hj1, hj2, hj3⟩ := ihwin x hx
            exact ⟨j, by omega, hj2, hj3⟩
        · intro x hx
          simp only [receiveGo, Nat.succ_ne_zero, if_false, hvis, decide_True, if_true,
            Nat.succ_sub_one, List.mem_cons] at hx ⊢
          rcases hx with rfl | hx
          · exact Or.inl rfl
          · exact Or.inr (ihstored x hx)
        · intro x hx
          simp only [receiveGo, Nat.succ_ne_zero, if_false, hvis, decide_True, if_true,
            Nat.succ_sub_one, List.mem_cons] at hx ⊢
          rcases hx with rfl | hx
          · exact Or.inr (Or.inl rfl)
          · rcases ihorig x hx with hor | hrec
            · exact Or.inl (Or.inr hor)
            · exact Or.inr (Or.inr hrec)
      · obtain ⟨ihmono, ihwin, ihstored, ihorig⟩ := ih (n + 1) h0
        refine ⟨?_, ?_, ?_, ?_⟩
        · simp only [receiveGo, Nat.succ_ne_zero, if_false, hvis, decide_False]
          exact ihmono
        · intro x hx
          simp only [receiveGo, Nat.succ_ne_zero, if_false, hvis, decide_False] at hx ⊢
          exact ihwin x hx
        · intro x hx
          simp only [receiveGo, Nat.succ_ne_zero, if_false, hvis, decide_False,
            List.mem_cons] at hx ⊢
          exact Or.inr (ihstored x hx)
        · intro x hx
          simp only [receiveGo, Nat.succ_ne_zero, if_false, hvis, decide_False,
            List.mem_cons] at hx ⊢
          rcases hx with rfl | hx
          · exact Or.inl (Or.inl rfl)
          · rcases ihorig x hx with hor | hrec
            · exact Or.inl (Or.inr hor)
            · exact Or.inr hrec

/-- **C6.** Handle rotation, under the collision-freedom of the handle
generator (modelled by the counter: every stored handle lies below
`nextHandle` — `hfresh` — stored handles are pairwise distinct —
`hdist` — and message ids are unique — `hids`). Every snapshot of a
receive carries a handle drawn at or above the pre-state counter, hence
distinct from every previously issued handle and in particular from the
old handle `hOld` of the message with id `i`; and once that message has
been re-received in this call (`hre`), no stored message holds `hOld`
any more, so both `delete_by_receipt_handle hOld` and
`change_visibility hOld` return false. -/
theorem receipt_handle_rotation (q : Queue) (i : String) (hOld : Nat)
    (hfresh : ∀ m ∈ q.messages, ∀ j, m.receipt_handle = some j → j < q.nextHandle)
    (hdist : ∀ x ∈ q.messages, ∀ y ∈ q.messages, ∀ j,
      x.receipt_handle = some j → y.receipt_handle = some j → x = y)
    (hids : (q.messages.map Message.id).Nodup)
    (hold : ∃ m ∈ q.messages, m.id = i ∧ m.receipt_handle = some hOld)
    (max : Nat) (vt : Option Nat) (now : Nat)
    (hre : ∃ m2 ∈ (q.receive max vt now).2, m2.id = i) :
    (∀ m2 ∈ (q.receive max vt now).2,
      ∃ j, q.nextHandle ≤ j ∧ m2.receipt_handle = some j ∧ j ≠ hOld) ∧
    (∀ m' ∈ (q.receive max vt now).1.messages, m'.receipt_handle ≠ some hOld) ∧
    (((q.receive max vt now).1.delete_by_receipt_handle hOld).2 = false) ∧
    (∀ t now2, ((q.receive max vt now).1.change_visibility hOld t now2).2 = false) := by
  obtain ⟨m0, hm0, hm0id, hm0h⟩ := hold
  have hOldlt : hOld < q.nextHandle := hfresh m0 hm0 hOld hm0h
  have hspec := receiveGo_spec (vt.getD q.default_visibility_timeout) now q.messages max
    q.nextHandle
  have hwin : ∀ x ∈ (q.receive max vt now).2,
      ∃ j, q.nextHandle ≤ j ∧ j < (q.receive max vt now).1.nextHandle ∧
        x.receipt_handle = some j := hspec.2.1
  have hstored : ∀ x ∈ (q.receive max vt now).2, x ∈ (q.receive max vt now).1.messages :=
    hspec.2.2.1
  have horig : ∀ x ∈ (q.receive max vt now).1.messages,
      x ∈ q.messages ∨ x ∈ (q.receive max vt now).2 := hspec.2.2.2
  have houtids : (q.receive max vt now).1.messages.map Message.id = q.messages.map Message.id :=
    (receiveGo_ids (vt.getD q.default_visibility_timeout) now q.messages max q.nextHandle).2
  have houtnodup : ((q.receive max vt now).1.messages.map Message.id).Nodup := by
    rw [houtids]; exact hids
  obtain ⟨m2, hm2rec, hm2id⟩ := hre
  obtain ⟨j2, hj2ge, _, hj2h⟩ := hwin m2 hm2rec
  have hm2stored := hstored m2 hm2rec
  -- no stored message of the post-state holds the old handle
  have hnone : ∀ m' ∈ (q.receive max vt now).1.messages, m'.receipt_handle ≠ some hOld := by
    intro m' hm' hcontra
    rcases horig m' hm' with hor | hrec
    · -- an untouched original holding hOld must be the id-i message,
      -- yet that message was re-received with a fresh handle
      have hm'eq : m' = m0 := hdist m' hor m0 hm0 hOld hcontra hm0h
      have hm'id : m'.id = i := by rw [hm'eq, hm0id]
      have hne : m' ≠ m2 := by
        intro heq
        rw [heq, hj2h] at hcontra
        have : j2 = hOld := by injection hcontra
        omega
      have : m' = m2 :=
        List.inj_on_of_nodup_map houtnodup hm' hm2stored (by rw [hm'id, hm2id])
      exact hne this
    · obtain ⟨j, hjge, _, hjh⟩ := hwin m' hrec
      rw [hjh] at hcontra
      have : j = hOld := by injection hcontra
      omega
  refine ⟨?_, hnone, ?_, ?_⟩
  · intro x hx
    obtain ⟨j, hjge, _, hjh⟩ := hwin x hx
    exact ⟨j, hjge, hjh, by omega⟩
  · have hdelnone : deleteGo hOld (q.receive max vt now).1.messages = none :=
      (deleteGo_eq_none_iff hOld _).mpr hnone
    simp [Queue.delete_by_receipt_handle, hdelnone]
  · intro t now2
    have hchgnone : changeGo hOld t now2 (q.receive max vt now).1.messages = none :=
      (changeGo_eq_none_iff hOld t now2 _).mpr hnone
    simp [Queue.change_visibility, hchgnone]

/-- Witness for C6: a queue with one message, currently holding handle
0 and visible again at time 10 with `nextHandle = 1`; receiving it
rotates the handle, after which delete with the old handle 0 fails. -/
theorem receipt_handle_rotation_witness :
    (((Queue.receive ⟨"q", [], 30, [⟨"m1", "b", some 0, 1, 5, some 2⟩], 1⟩
        1 none 10).1.delete_by_receipt_handle 0).2 = false) ∧
    (∀ t now2, ((Queue.receive ⟨"q", [], 30, [⟨"m1", "b", some 0, 1, 5, some 2⟩], 1⟩
        1 none 10).1.change_visibility 0 t now2).2 = false) :=
  have hmain := receipt_handle_rotation
    ⟨"q", [], 30, [⟨"m1", "b", some 0, 1, 5, some 2⟩], 1⟩ "m1" 0
    (by
      intro m hm j hj
      simp at hm
      subst hm
      injection hj with hj0
      subst hj0
      decide)
    (by
      intro x hx y hy j h1 h2
      simp at hx hy
      rw [hx, hy])
    (by decide)
    ⟨⟨"m1", "b", some 0, 1, 5, some 2⟩, by decide, by decide, by decide⟩
    1 none 10
    ⟨⟨"m1", "b", some 1, 2, 40, some 2⟩, by decide, by decide⟩
  ⟨hmain.2.2.1, hmain.2.2.2⟩

end SqsNavbat
